import Mathlib

/-!
Verification of the money representation and aggregation core of the
Subscription-Manager repository (lib/constants.ts, lib/utils.ts in
src/unnamed/part_000).

Modelling conventions:
- JavaScript numeric amounts are embedded as exact rationals.  All values
  the core manipulates are decimal fractions, which are exact in this model.
- Number.prototype.toFixed is embedded through its ECMA-262 definition: for
  a finite receiver x with |x| below 10 to the 21st power, toFixed(f)
  renders sign(x) together with the integer n that is closest to |x| times
  10^f, picking the larger n on ties (round half away from zero), as a
  digit string with the decimal point inserted.  The source pipeline
  toFixed / replace point / parseInt therefore produces exactly
  sign(x) * n, which is how convertAmountToMinorUnits is embedded below.
- Math.round(x) is the floor of x + 1/2 (ECMA-262), which coincides with
  Mathlib round on the rationals.
- Where a claim depends on which binary64 value a decimal source literal
  denotes, or on the binary64 result of a division or multiplication the
  program performs, the rounding of a rational to the binary64 grid of its
  binade is modelled explicitly (binary64Round below); everywhere else the
  exact decimal semantics is used, on inputs where the two agree.
- Where a claim depends on JavaScript property access resolving
  Object.prototype inherited keys, that resolution is modelled explicitly
  (jsPropertyAccess below); the plain lookup model is used only on codes
  that are not inherited keys.
-/

namespace SubscriptionManager

/-- Configuration of one currency in lib/constants.ts: its ISO code, its
display symbol and its number of minor-unit digits (decimals). -/
structure CurrencyConfig where
  code : String
  symbol : String
  decimals : ℕ
deriving DecidableEq

/-- Entry JPY of the CURRENCIES record in lib/constants.ts. -/
def CURRENCIES_JPY : CurrencyConfig := ⟨"JPY", "¥", 0⟩

/-- Entry USD of the CURRENCIES record in lib/constants.ts. -/
def CURRENCIES_USD : CurrencyConfig := ⟨"USD", "$", 2⟩

/-- Entry EUR of the CURRENCIES record in lib/constants.ts. -/
def CURRENCIES_EUR : CurrencyConfig := ⟨"EUR", "€", 2⟩

/-- Key access CURRENCIES[code] on the three-key CURRENCIES record,
restricted to own properties: some config for a registered code, none
otherwise.  This is faithful only for codes that are not Object.prototype
inherited keys; the full JavaScript access, which also resolves inherited
keys such as toString, is jsPropertyAccess below. -/
def lookupCurrency (code : String) : Option CurrencyConfig :=
  if code = "JPY" then some CURRENCIES_JPY
  else if code = "USD" then some CURRENCIES_USD
  else if code = "EUR" then some CURRENCIES_EUR
  else none

/-- Codes registered in the Currency Registry (the keys of CURRENCIES). -/
def registeredCurrencyCodes : List String := ["JPY", "USD", "EUR"]

/-- Resolution CURRENCIES[currency as CurrencyCode] ?? CURRENCIES.JPY used by
both converters (src/unnamed/part_000, lines 27 and 37): an unrecognized
code falls back to the JPY configuration. -/
def configFor (currency : String) : CurrencyConfig :=
  (lookupCurrency currency).getD CURRENCIES_JPY

/-- convertAmountFromMinorUnits (src/unnamed/part_000, lines 26 to 29):
divides the stored integer amount by 10 to the power decimals of the
resolved currency.  The division here is exact; the program divides in
binary64, which agrees with the exact quotient whenever the quotient is
representable and, after the toFixed rounding of toMinorUnits, on every
amount below 100 times 2 to the 46th for two-decimal currencies.  Where a
claim depends on the binary64 quotient itself, that quotient is modelled
explicitly with binary64Round (doubleRoundtripQuotient below). -/
def convertAmountFromMinorUnits (amount : ℚ) (currency : String) : ℚ :=
  amount / 10 ^ (configFor currency).decimals

/-- convertAmountToMinorUnits (src/unnamed/part_000, lines 36 to 46):
fixedString = amount.toFixed(config.decimals), then the decimal point is
removed and the digit string is read back with parseInt.  By the ECMA-262
definition of toFixed (see the file comment) the pipeline returns the
integer closest to |amount| times 10^decimals, ties rounded to the larger
integer, with the sign of amount reattached; Mathlib round is exactly that
tie-breaking rule on nonnegative arguments.  Modelled for magnitudes below
10 to the 21st power: at and above that bound toFixed falls back to the
exponential ToString rendering and the parseInt pipeline degenerates, so
theorems quantifying over amounts carry that bound where it matters. -/
def convertAmountToMinorUnits (amount : ℚ) (currency : String) : ℤ :=
  let d := (configFor currency).decimals
  if amount < 0 then -round (-amount * 10 ^ d) else round (amount * 10 ^ d)

/-- Billing cycles from SUBSCRIPTION_CYCLES in lib/constants.ts. -/
inductive SubscriptionCycle
  | monthly
  | yearly
deriving DecidableEq

/-- Projection of a stored subscriptions row to the three fields the
aggregation core reads: price (integer minor units), currency (free-form
text column) and cycle. -/
structure Subscription where
  price : ℤ
  currency : String
  cycle : SubscriptionCycle
deriving DecidableEq

/-- AggregatedTotals (src/unnamed/part_000, lines 66 to 68): a record with
exactly one numeric field per registered currency code. -/
structure AggregatedTotals where
  JPY : ℚ
  USD : ℚ
  EUR : ℚ
deriving DecidableEq

/-- Per-record monthly conversion inside calculateMonthlyAggregations
(src/unnamed/part_000, lines 87 to 91): a monthly price is kept unchanged;
a yearly price is divided by 12 and fixed to two fractional digits by
Math.round((actualPrice / 12) * 100) / 100.  The division and
multiplication here are exact, while the program computes the intermediate
(actualPrice / 12) * 100 in binary64; the two agree except when the exact
intermediate sits at or within a float error of a half integer, so
half-up tie behavior of this exact model must not be read into the
program.  Where a claim depends on the binary64 intermediate, it is
modelled explicitly with binary64Round (double042monthly below). -/
def monthlyEquivalent (actualPrice : ℚ) (cycle : SubscriptionCycle) : ℚ :=
  match cycle with
  | .monthly => actualPrice
  | .yearly => (round (actualPrice / 12 * 100) : ℚ) / 100

/-- Keyed update totals[currency] += amount on the three-field record. -/
def addToTotals (totals : AggregatedTotals) (currency : String) (amount : ℚ) :
    AggregatedTotals :=
  if currency = "JPY" then { totals with JPY := totals.JPY + amount }
  else if currency = "USD" then { totals with USD := totals.USD + amount }
  else if currency = "EUR" then { totals with EUR := totals.EUR + amount }
  else totals

/-- Body of the forEach loop of calculateMonthlyAggregations
(src/unnamed/part_000, lines 81 to 94): records whose currency is not an
own property of the totals record are skipped; otherwise the stored price
is converted to a decimal, amortized per its cycle and added to the total
of its own currency. -/
def aggregateStep (totals : AggregatedTotals) (sub : Subscription) :
    AggregatedTotals :=
  if sub.currency ∈ registeredCurrencyCodes then
    addToTotals totals sub.currency
      (monthlyEquivalent (convertAmountFromMinorUnits (sub.price : ℚ) sub.currency)
        sub.cycle)
  else totals

/-- calculateMonthlyAggregations (src/unnamed/part_000, lines 74 to 97):
starts from the all-zero totals record and folds the loop body over the
input list in order. -/
def calculateMonthlyAggregations (subscriptions : List Subscription) :
    AggregatedTotals :=
  subscriptions.foldl aggregateStep ⟨0, 0, 0⟩

/-- Observation of the totals record as a partial map over currency-code
strings: some value on the three registered keys, none elsewhere. -/
def AggregatedTotals.lookup (t : AggregatedTotals) (currency : String) :
    Option ℚ :=
  if currency = "JPY" then some t.JPY
  else if currency = "USD" then some t.USD
  else if currency = "EUR" then some t.EUR
  else none

/-- Total of a currency in an AggregatedTotals record, zero for a key the
record does not carry. -/
def AggregatedTotals.total (t : AggregatedTotals) (currency : String) : ℚ :=
  (t.lookup currency).getD 0

/-- Rounding of a rational to the nearest integer with ties broken to the
even neighbour, the tie rule of IEEE-754 round-to-nearest. -/
def roundTiesEven (x : ℚ) : ℤ :=
  if x - ⌊x⌋ = 1/2 then (if Even ⌊x⌋ then ⌊x⌋ else ⌊x⌋ + 1) else round x

/-- Rounding of a rational x lying in the binade from 2^e to 2^(e+1) to the
IEEE-754 binary64 grid: the representable values there are the integer
multiples of 2^(e-52), and round-to-nearest picks the closest multiple,
ties to even.  This is what a JavaScript decimal literal in that range
denotes at runtime. -/
def binary64Round (e : ℤ) (x : ℚ) : ℚ :=
  (roundTiesEven (x / (2:ℚ) ^ (e - 52)) : ℚ) * (2:ℚ) ^ (e - 52)

/-- Binary64 value denoted by the JavaScript literal 9.995 (binade of 8). -/
def double9995 : ℚ := binary64Round 3 (9995/1000)

/-- Binary64 value denoted by the JavaScript literal 9.994 (binade of 8). -/
def double9994 : ℚ := binary64Round 3 (9994/1000)

/-- Binary64 value denoted by the JavaScript literal 10.99 (binade of 8),
the worked example in the source comment of convertAmountToMinorUnits. -/
def double1099 : ℚ := binary64Round 3 (1099/100)

/-- Binary64 quotient 7036874417766407 / 100 as the program computes it in
convertAmountFromMinorUnits for USD: the exact quotient lies in the binade
of 2 to the 46th (ulp 1/64) and rounds to 70368744177664.0625. -/
def doubleRoundtripQuotient : ℚ := binary64Round 46 ((7036874417766407:ℚ)/100)

/-- Binary64 value denoted by the literal 0.42 (binade of 1/4). -/
def double042 : ℚ := binary64Round (-2) (42/100)

/-- Binary64 quotient of double042 by 12 as the program computes it
(binade of 1/32). -/
def double042div12 : ℚ := binary64Round (-5) (double042 / 12)

/-- Binary64 product of double042div12 with 100 as the program computes
it (binade of 2): the intermediate (0.42 / 12) * 100 that line 90 of the
source feeds Math.round, equal to 3.4999999999999996..., strictly below
the half integer that the exact intermediate 3.5 reaches. -/
def double042monthly : ℚ := binary64Round 1 (double042div12 * 100)

/-- Property keys inherited by every plain JavaScript object from
Object.prototype: an access CURRENCIES[k] for k among these yields the
inherited member, not undefined, so the ?? fallback does not fire. -/
def objectPrototypeKeys : List String :=
  ["constructor", "hasOwnProperty", "isPrototypeOf", "propertyIsEnumerable",
   "toLocaleString", "toString", "valueOf", "__proto__",
   "__defineGetter__", "__defineSetter__", "__lookupGetter__", "__lookupSetter__"]

/-- Outcome of the full JavaScript property access CURRENCIES[code]: a
registered configuration, an Object.prototype inherited member (whose
decimals field reads undefined), or undefined. -/
inductive JsLookupResult
  | config (c : CurrencyConfig)
  | inherited
  | absent
deriving DecidableEq

/-- Full JavaScript semantics of CURRENCIES[code]: own keys first, then
the Object.prototype inherited keys, then undefined. -/
def jsPropertyAccess (code : String) : JsLookupResult :=
  if code = "JPY" then .config CURRENCIES_JPY
  else if code = "USD" then .config CURRENCIES_USD
  else if code = "EUR" then .config CURRENCIES_EUR
  else if code ∈ objectPrototypeKeys then .inherited
  else .absent

/-- convertAmountFromMinorUnits under the full property-access semantics:
for an inherited key the ?? fallback is skipped, config.decimals reads
undefined, Math.pow(10, undefined) is NaN and the division returns NaN,
modelled as none; otherwise the registered or fallback JPY configuration
divides exactly as in convertAmountFromMinorUnits. -/
def convertAmountFromMinorUnitsJs (amount : ℚ) (currency : String) : Option ℚ :=
  match jsPropertyAccess currency with
  | .config c => some (amount / 10 ^ c.decimals)
  | .inherited => none
  | .absent => some (amount / 10 ^ CURRENCIES_JPY.decimals)

/-- convertAmountToMinorUnits under the full property-access semantics:
for an inherited key config.decimals reads undefined, toFixed(undefined)
coerces the digit count to 0 (ToIntegerOrInfinity), so the conversion
rounds to a whole number exactly as the JPY fallback does. -/
def convertAmountToMinorUnitsJs (amount : ℚ) (currency : String) : ℤ :=
  let d : ℕ :=
    match jsPropertyAccess currency with
    | .config c => c.decimals
    | .inherited => 0
    | .absent => CURRENCIES_JPY.decimals
  if amount < 0 then -round (-amount * 10 ^ d) else round (amount * 10 ^ d)

/-! Helper lemmas for evaluating floors and rounds on concrete rationals. -/

theorem floor_rat_eq (x : ℚ) (n : ℤ) (h1 : (n:ℚ) ≤ x) (h2 : x < n + 1) :
    ⌊x⌋ = n :=
  Int.floor_eq_iff.mpr ⟨h1, h2⟩

theorem round_rat_eq (x : ℚ) (n : ℤ) (h1 : (n:ℚ) ≤ x + 1/2) (h2 : x + 1/2 < n + 1) :
    round x = n := by
  rw [round_eq]
  exact Int.floor_eq_iff.mpr ⟨h1, h2⟩

theorem configFor_JPY : configFor "JPY" = CURRENCIES_JPY := rfl

theorem configFor_USD : configFor "USD" = CURRENCIES_USD := rfl

theorem configFor_EUR : configFor "EUR" = CURRENCIES_EUR := rfl

theorem configFor_USD_decimals : (configFor "USD").decimals = 2 := rfl

theorem configFor_JPY_decimals : (configFor "JPY").decimals = 0 := rfl

/-- Resolution of an unregistered code: all three keyed accesses miss, so the
getD fallback yields the JPY configuration. -/
theorem configFor_unregistered (code : String) (h : code ∉ registeredCurrencyCodes) :
    configFor code = CURRENCIES_JPY := by
  have h3 : ¬ code = "JPY" ∧ ¬ code = "USD" ∧ ¬ code = "EUR" := by
    simpa [registeredCurrencyCodes] using h
  simp [configFor, lookupCurrency, h3.1, h3.2.1, h3.2.2]

/-- Branch of convertAmountToMinorUnits taken on nonnegative amounts. -/
theorem toMinor_nonneg_eq (q : ℚ) (c : String) (hq : 0 ≤ q) :
    convertAmountToMinorUnits q c = round (q * 10 ^ (configFor c).decimals) := by
  show (if q < 0 then -round (-q * 10 ^ (configFor c).decimals)
        else round (q * 10 ^ (configFor c).decimals)) = _
  rw [if_neg (not_lt.mpr hq)]

/-- Branch of convertAmountToMinorUnits taken on negative amounts: the sign
is carried by the string and reattached by parseInt. -/
theorem toMinor_neg_eq (q : ℚ) (c : String) (hq : q < 0) :
    convertAmountToMinorUnits q c = -round (-q * 10 ^ (configFor c).decimals) := by
  show (if q < 0 then -round (-q * 10 ^ (configFor c).decimals)
        else round (q * 10 ^ (configFor c).decimals)) = _
  rw [if_pos hq]

/-- C8: for the zero-decimal currency JPY, toMinorUnits rounds any
nonnegative fractional input to the nearest whole unit (ties up, the
toFixed rule), fromMinorUnits is the identity on integers, and in
particular toMinorUnits(1500.7, JPY) = 1501 and
fromMinorUnits(1501, JPY) = 1501. -/
theorem zero_decimal_JPY_behavior :
    (∀ q : ℚ, 0 ≤ q → convertAmountToMinorUnits q "JPY" = round q) ∧
    (∀ m : ℤ, convertAmountFromMinorUnits (m : ℚ) "JPY" = m) ∧
    convertAmountToMinorUnits ((15007:ℚ)/10) "JPY" = 1501 ∧
    convertAmountFromMinorUnits (1501 : ℚ) "JPY" = 1501 := by
  refine ⟨?_, ?_, ?_, ?_⟩
  · intro q hq
    rw [toMinor_nonneg_eq q "JPY" hq, configFor_JPY_decimals, pow_zero, mul_one]
  · intro m
    unfold convertAmountFromMinorUnits
    rw [configFor_JPY_decimals, pow_zero, div_one]
  · rw [toMinor_nonneg_eq _ "JPY" (by norm_num), configFor_JPY_decimals, pow_zero,
      mul_one]
    exact round_rat_eq _ 1501 (by norm_num) (by norm_num)
  · unfold convertAmountFromMinorUnits
    rw [configFor_JPY_decimals, pow_zero, div_one]

/-- Witness for C8 discharging the nonnegativity hypothesis at 1500.7. -/
theorem zero_decimal_JPY_behavior_witness :
    (0:ℚ) ≤ (15007:ℚ)/10 ∧
    convertAmountToMinorUnits ((15007:ℚ)/10) "JPY" = round ((15007:ℚ)/10) :=
  ⟨by norm_num, zero_decimal_JPY_behavior.1 ((15007:ℚ)/10) (by norm_num)⟩

/-- C4: aggregating the three documented records gives exactly
JPY 11000, USD 9.99, EUR 0. -/
theorem aggregation_end_to_end :
    calculateMonthlyAggregations
      [⟨1000, "JPY", .monthly⟩, ⟨120000, "JPY", .yearly⟩, ⟨999, "USD", .monthly⟩] =
      ⟨11000, 999/100, 0⟩ := by
  have h1 : round ((1000000:ℚ)) = 1000000 := by
    rw [show (1000000:ℚ) = ((1000000:ℤ):ℚ) by norm_num, round_intCast]
  have s1 : ("JPY":String) ∈ registeredCurrencyCodes := by decide
  have s2 : ("USD":String) ∈ registeredCurrencyCodes := by decide
  have s3 : ¬ (("USD":String) = "JPY") := by decide
  norm_num [calculateMonthlyAggregations, List.foldl, aggregateStep,
    addToTotals, convertAmountFromMinorUnits,
    configFor_JPY, configFor_USD, CURRENCIES_JPY, CURRENCIES_USD,
    monthlyEquivalent, h1, s1, s2, s3]

/-- C5: the mapping returned by the aggregator carries exactly one entry
per registered currency (JPY, USD, EUR) and no other, and aggregating the
empty sequence yields the all-zero totals. -/
theorem totals_exactly_registered :
    calculateMonthlyAggregations [] = ⟨0, 0, 0⟩ ∧
    ∀ (subs : List Subscription) (c : String),
      ((calculateMonthlyAggregations subs).lookup c).isSome ↔
        c ∈ registeredCurrencyCodes := by
  refine ⟨rfl, ?_⟩
  intro subs c
  by_cases h1 : c = "JPY"
  · subst h1; simp [AggregatedTotals.lookup, registeredCurrencyCodes]
  by_cases h2 : c = "USD"
  · subst h2; simp [AggregatedTotals.lookup, registeredCurrencyCodes]
  by_cases h3 : c = "EUR"
  · subst h3; simp [AggregatedTotals.lookup, registeredCurrencyCodes]
  · simp [AggregatedTotals.lookup, registeredCurrencyCodes, h1, h2, h3]

/-- C6: a record whose currency is not registered is skipped silently by
the aggregator: removing it from anywhere in the sequence does not change
the result. -/
theorem unregistered_currency_skipped (pre post : List Subscription)
    (r : Subscription) (h : r.currency ∉ registeredCurrencyCodes) :
    calculateMonthlyAggregations (pre ++ r :: post) =
      calculateMonthlyAggregations (pre ++ post) := by
  unfold calculateMonthlyAggregations
  rw [List.foldl_append, List.foldl_append, List.foldl_cons]
  have hstep : aggregateStep (List.foldl aggregateStep ⟨0,0,0⟩ pre) r =
      List.foldl aggregateStep ⟨0,0,0⟩ pre := by
    unfold aggregateStep
    rw [if_neg h]
  rw [hstep]

/-- Witness for C6: a GBP record between a JPY record and the end of the
list contributes nothing. -/
theorem unregistered_currency_skipped_witness :
    (⟨500, "GBP", .monthly⟩ : Subscription).currency ∉ registeredCurrencyCodes ∧
    calculateMonthlyAggregations
        ([⟨1000, "JPY", .monthly⟩] ++ (⟨500, "GBP", .monthly⟩ : Subscription) :: []) =
      calculateMonthlyAggregations ([⟨1000, "JPY", .monthly⟩] ++ []) :=
  ⟨by decide, unregistered_currency_skipped _ _ _ (by decide)⟩

theorem addToTotals_JPY (t : AggregatedTotals) (v : ℚ) :
    addToTotals t "JPY" v = { t with JPY := t.JPY + v } := by
  simp [addToTotals]

theorem addToTotals_USD (t : AggregatedTotals) (v : ℚ) :
    addToTotals t "USD" v = { t with USD := t.USD + v } := by
  simp [addToTotals]

theorem addToTotals_EUR (t : AggregatedTotals) (v : ℚ) :
    addToTotals t "EUR" v = { t with EUR := t.EUR + v } := by
  simp [addToTotals]

/-- Nonnegativity of the per-record monthly equivalent for a nonnegative
decimal amount: the monthly branch is the amount itself and the yearly
branch rounds a nonnegative value. -/
theorem monthlyEquivalent_nonneg (a : ℚ) (ha : 0 ≤ a) (cy : SubscriptionCycle) :
    0 ≤ monthlyEquivalent a cy := by
  cases cy
  · exact ha
  · show (0:ℚ) ≤ (round (a / 12 * 100) : ℚ) / 100
    have hz : (0:ℤ) ≤ round (a / 12 * 100) := by
      rw [round_eq]
      apply Int.le_floor.mpr
      push_cast
      linarith
    exact div_nonneg (by exact_mod_cast hz) (by norm_num)

/-- C9: appending a record with a registered currency and a nonnegative
price changes no registered total other than the one of its own currency,
and never decreases that one. -/
theorem append_record_frame (s : List Subscription) (r : Subscription)
    (hc : r.currency ∈ registeredCurrencyCodes) (hp : 0 ≤ r.price) :
    (∀ c ∈ registeredCurrencyCodes, c ≠ r.currency →
        (calculateMonthlyAggregations (s ++ [r])).total c =
          (calculateMonthlyAggregations s).total c) ∧
    (calculateMonthlyAggregations s).total r.currency ≤
      (calculateMonthlyAggregations (s ++ [r])).total r.currency := by
  have hagg : calculateMonthlyAggregations (s ++ [r]) =
      aggregateStep (calculateMonthlyAggregations s) r := by
    unfold calculateMonthlyAggregations
    rw [List.foldl_append, List.foldl_cons, List.foldl_nil]
  have hpq : (0:ℚ) ≤ (r.price : ℚ) := by exact_mod_cast hp
  have hd0 : (0:ℚ) ≤ convertAmountFromMinorUnits (r.price : ℚ) r.currency := by
    unfold convertAmountFromMinorUnits
    positivity
  have hnn : 0 ≤ monthlyEquivalent
      (convertAmountFromMinorUnits (r.price : ℚ) r.currency) r.cycle :=
    monthlyEquivalent_nonneg _ hd0 _
  rw [hagg]
  unfold aggregateStep
  rw [if_pos hc]
  have hc3 : r.currency = "JPY" ∨ r.currency = "USD" ∨ r.currency = "EUR" := by
    simpa [registeredCurrencyCodes] using hc
  set v := monthlyEquivalent
    (convertAmountFromMinorUnits (r.price : ℚ) r.currency) r.cycle with hv
  set t := calculateMonthlyAggregations s with ht
  rcases hc3 with h | h | h
  · rw [h, addToTotals_JPY]
    constructor
    · intro c hcm hne
      rcases (by simpa [registeredCurrencyCodes] using hcm :
          c = "JPY" ∨ c = "USD" ∨ c = "EUR") with rfl | rfl | rfl
      · exact absurd rfl hne
      · rfl
      · rfl
    · show t.JPY ≤ t.JPY + v
      exact le_add_of_nonneg_right hnn
  · rw [h, addToTotals_USD]
    constructor
    · intro c hcm hne
      rcases (by simpa [registeredCurrencyCodes] using hcm :
          c = "JPY" ∨ c = "USD" ∨ c = "EUR") with rfl | rfl | rfl
      · rfl
      · exact absurd rfl hne
      · rfl
    · show t.USD ≤ t.USD + v
      exact le_add_of_nonneg_right hnn
  · rw [h, addToTotals_EUR]
    constructor
    · intro c hcm hne
      rcases (by simpa [registeredCurrencyCodes] using hcm :
          c = "JPY" ∨ c = "USD" ∨ c = "EUR") with rfl | rfl | rfl
      · rfl
      · rfl
      · exact absurd rfl hne
    · show t.EUR ≤ t.EUR + v
      exact le_add_of_nonneg_right hnn

/-- Witness for C9 at the empty sequence and a USD record of price 100. -/
theorem append_record_frame_witness :
    (⟨100, "USD", .monthly⟩ : Subscription).currency ∈ registeredCurrencyCodes ∧
    0 ≤ (⟨100, "USD", .monthly⟩ : Subscription).price ∧
    ((∀ c ∈ registeredCurrencyCodes,
        c ≠ (⟨100, "USD", .monthly⟩ : Subscription).currency →
        (calculateMonthlyAggregations
            (([] : List Subscription) ++ [⟨100, "USD", .monthly⟩])).total c =
          (calculateMonthlyAggregations ([] : List Subscription)).total c) ∧
      (calculateMonthlyAggregations ([] : List Subscription)).total
          (⟨100, "USD", .monthly⟩ : Subscription).currency ≤
        (calculateMonthlyAggregations
            (([] : List Subscription) ++ [⟨100, "USD", .monthly⟩])).total
          (⟨100, "USD", .monthly⟩ : Subscription).currency) :=
  ⟨by decide, by decide, append_record_frame [] _ (by decide) (by decide)⟩

theorem roundTiesEven_eq_round_of (x : ℚ) (h : x - ⌊x⌋ ≠ 1/2) :
    roundTiesEven x = round x := by
  unfold roundTiesEven
  exact if_neg h

/-- Exact value of the binary64 double denoted by the literal 9.995: it is
9.99499999999999921875..., strictly below the half-cent boundary. -/
theorem double9995_eq : double9995 = 5626684784446013 / 562949953421312 := by
  have ha : (9995:ℚ)/1000 / (2:ℚ)^((3:ℤ) - 52) = 140667119611150336/25 := by
    norm_num
  have hfl : ⌊(140667119611150336:ℚ)/25⌋ = 5626684784446013 :=
    floor_rat_eq _ _ (by norm_num) (by norm_num)
  have hne : (140667119611150336:ℚ)/25 - ⌊(140667119611150336:ℚ)/25⌋ ≠ 1/2 := by
    rw [hfl]
    norm_num
  have hrte : roundTiesEven ((140667119611150336:ℚ)/25) = 5626684784446013 := by
    rw [roundTiesEven_eq_round_of _ hne]
    exact round_rat_eq _ _ (by norm_num) (by norm_num)
  unfold double9995 binary64Round
  rw [ha, hrte]
  norm_num

/-- Exact value of the binary64 double denoted by the literal 9.994. -/
theorem double9994_eq : double9994 = 351632614655787 / 35184372088832 := by
  have ha : (9994:ℚ)/1000 / (2:ℚ)^((3:ℤ) - 52) = 703265229311574016/125 := by
    norm_num
  have hfl : ⌊(703265229311574016:ℚ)/125⌋ = 5626121834492592 :=
    floor_rat_eq _ _ (by norm_num) (by norm_num)
  have hne : (703265229311574016:ℚ)/125 - ⌊(703265229311574016:ℚ)/125⌋ ≠ 1/2 := by
    rw [hfl]
    norm_num
  have hrte : roundTiesEven ((703265229311574016:ℚ)/125) = 5626121834492592 := by
    rw [roundTiesEven_eq_round_of _ hne]
    exact round_rat_eq _ _ (by norm_num) (by norm_num)
  unfold double9994 binary64Round
  rw [ha, hrte]
  norm_num

/-- Exact value of the binary64 double denoted by the literal 10.99. -/
theorem double1099_eq : double1099 = 6186819988100219 / 562949953421312 := by
  have ha : (1099:ℚ)/100 / (2:ℚ)^((3:ℤ) - 52) = 154670499702505472/25 := by
    norm_num
  have hfl : ⌊(154670499702505472:ℚ)/25⌋ = 6186819988100218 :=
    floor_rat_eq _ _ (by norm_num) (by norm_num)
  have hne : (154670499702505472:ℚ)/25 - ⌊(154670499702505472:ℚ)/25⌋ ≠ 1/2 := by
    rw [hfl]
    norm_num
  have hrte : roundTiesEven ((154670499702505472:ℚ)/25) = 6186819988100219 := by
    rw [roundTiesEven_eq_round_of _ hne]
    exact round_rat_eq _ _ (by norm_num) (by norm_num)
  unfold double1099 binary64Round
  rw [ha, hrte]
  norm_num

/-- Closeness of double9995 to 9.995 among all grid points of its binade:
no integer multiple of the ulp 2 to the power -49 is closer to 9.995. -/
theorem double9995_nearest (m : ℤ) :
    |(9995:ℚ)/1000 - double9995| ≤
      |(9995:ℚ)/1000 - m * (2:ℚ)^((3:ℤ) - 52)| := by
  have hcpos : (0:ℚ) < (2:ℚ)^((3:ℤ) - 52) := by positivity
  have ha : (9995:ℚ)/1000 / (2:ℚ)^((3:ℤ) - 52) = 140667119611150336/25 := by
    norm_num
  have hfl : ⌊(140667119611150336:ℚ)/25⌋ = 5626684784446013 :=
    floor_rat_eq _ _ (by norm_num) (by norm_num)
  have hne : (140667119611150336:ℚ)/25 - ⌊(140667119611150336:ℚ)/25⌋ ≠ 1/2 := by
    rw [hfl]
    norm_num
  have hd : double9995 =
      (round ((9995:ℚ)/1000 / (2:ℚ)^((3:ℤ) - 52)) : ℚ) * (2:ℚ)^((3:ℤ) - 52) := by
    unfold double9995 binary64Round
    rw [ha, roundTiesEven_eq_round_of _ hne]
  have key : ∀ n : ℤ, (9995:ℚ)/1000 - (n:ℚ) * (2:ℚ)^((3:ℤ) - 52) =
      ((9995:ℚ)/1000 / (2:ℚ)^((3:ℤ) - 52) - n) * (2:ℚ)^((3:ℤ) - 52) := by
    intro n
    field_simp
    ring
  rw [hd, key, key]
  rw [abs_mul, abs_mul, abs_of_pos hcpos]
  exact mul_le_mul_of_nonneg_right
    (round_le ((9995:ℚ)/1000 / (2:ℚ)^((3:ℤ) - 52)) m) hcpos.le

/-- C1 counterexample: the number a JavaScript caller passes as 9.995 is
the binary64 value double9995, and the converter returns 999 on it, not
1000: the toFixed digit fixing operates on the exact value of the double,
which already lies below the half-cent boundary. -/
theorem toMinor_9995_counterexample :
    convertAmountToMinorUnits double9995 "USD" = 999 ∧
    convertAmountToMinorUnits double9995 "USD" ≠ 1000 := by
  have h0 : (0:ℚ) ≤ double9995 := by
    rw [double9995_eq]
    norm_num
  have key : convertAmountToMinorUnits double9995 "USD" = 999 := by
    rw [toMinor_nonneg_eq _ _ h0, configFor_USD_decimals, double9995_eq]
    exact round_rat_eq _ _ (by norm_num) (by norm_num)
  exact ⟨key, by rw [key]; decide⟩

/-- C1 amended: on the binary64 inputs that the literals 9.995 and 9.994
denote, the converter returns 999 for both; the digit-string fixing does
avoid multiplication artifacts (the double of 10.99 maps to exactly 1099)
and does round an exact half-cent boundary up (an exact 9.995 would give
1000), but it cannot undo the rounding already present in the literal. -/
theorem toMinor_9995_amended :
    convertAmountToMinorUnits double9995 "USD" = 999 ∧
    convertAmountToMinorUnits double9994 "USD" = 999 ∧
    convertAmountToMinorUnits double1099 "USD" = 1099 ∧
    convertAmountToMinorUnits ((9995:ℚ)/1000) "USD" = 1000 := by
  refine ⟨?_, ?_, ?_, ?_⟩
  · have h0 : (0:ℚ) ≤ double9995 := by
      rw [double9995_eq]
      norm_num
    rw [toMinor_nonneg_eq _ _ h0, configFor_USD_decimals, double9995_eq]
    exact round_rat_eq _ _ (by norm_num) (by norm_num)
  · have h0 : (0:ℚ) ≤ double9994 := by
      rw [double9994_eq]
      norm_num
    rw [toMinor_nonneg_eq _ _ h0, configFor_USD_decimals, double9994_eq]
    exact round_rat_eq _ _ (by norm_num) (by norm_num)
  · have h0 : (0:ℚ) ≤ double1099 := by
      rw [double1099_eq]
      norm_num
    rw [toMinor_nonneg_eq _ _ h0, configFor_USD_decimals, double1099_eq]
    exact round_rat_eq _ _ (by norm_num) (by norm_num)
  · rw [toMinor_nonneg_eq _ _ (by norm_num), configFor_USD_decimals]
    exact round_rat_eq _ _ (by norm_num) (by norm_num)

/-- C10 counterexample: -0.001 is a negative finite input on which the
converter returns 0 (toFixed renders -0.00, parseInt reads minus zero),
which is not a negative integer. -/
theorem toMinor_negative_counterexample :
    (-(1:ℚ)/1000) < 0 ∧
    convertAmountToMinorUnits (-(1:ℚ)/1000) "USD" = 0 ∧
    ¬ convertAmountToMinorUnits (-(1:ℚ)/1000) "USD" < 0 := by
  have hneg : (-(1:ℚ)/1000) < 0 := by norm_num
  have key : convertAmountToMinorUnits (-(1:ℚ)/1000) "USD" = 0 := by
    rw [toMinor_neg_eq _ _ hneg, configFor_USD_decimals]
    rw [round_rat_eq (-(-(1:ℚ)/1000) * 10^(2:ℕ)) 0 (by norm_num) (by norm_num)]
    norm_num
  exact ⟨hneg, key, by rw [key]; decide⟩

/-- C10 amended: the converter performs no validation and is total on
negative inputs, returning the rounding of the magnitude with the sign
reattached: -10.99 USD yields -1099, every amount at or below minus half a
minor unit yields a negative integer, and a negative amount of magnitude
below half a minor unit yields 0. -/
theorem toMinor_negative_amended :
    convertAmountToMinorUnits (-(1099:ℚ)/100) "USD" = -1099 ∧
    (∀ q : ℚ, q ≤ -(1/200) → convertAmountToMinorUnits q "USD" < 0) ∧
    (∀ q : ℚ, -(1/200) < q → q < 0 → convertAmountToMinorUnits q "USD" = 0) := by
  refine ⟨?_, ?_, ?_⟩
  · have hneg : (-(1099:ℚ)/100) < 0 := by norm_num
    rw [toMinor_neg_eq _ _ hneg, configFor_USD_decimals]
    rw [show -(-(1099:ℚ)/100) * 10^(2:ℕ) = ((1099:ℤ):ℚ) by norm_num, round_intCast]
  · intro q hq
    have hneg : q < 0 := lt_of_le_of_lt hq (by norm_num)
    rw [toMinor_neg_eq _ _ hneg, configFor_USD_decimals]
    have h1 : (1:ℤ) ≤ round (-q * 10^(2:ℕ)) := by
      rw [round_eq]
      apply Int.le_floor.mpr
      push_cast
      nlinarith
    linarith
  · intro q h1 h2
    rw [toMinor_neg_eq _ _ h2, configFor_USD_decimals]
    rw [round_rat_eq (-q * 10^(2:ℕ)) 0
      (by push_cast; nlinarith) (by push_cast; nlinarith)]
    norm_num

/-- Witness for the amended C10 at the input -1 USD. -/
theorem toMinor_negative_amended_witness :
    (-1:ℚ) ≤ -(1/200) ∧ convertAmountToMinorUnits (-1:ℚ) "USD" < 0 :=
  ⟨by norm_num, toMinor_negative_amended.2.1 (-1) (by norm_num)⟩

/-- Nearness of binary64Round e x among all grid points of the binade of
2 to the e-th, away from ties: no integer multiple of the ulp is closer
to x than the rounded value. -/
theorem binary64Round_nearest (e : ℤ) (x : ℚ)
    (h : x / (2:ℚ)^(e - 52) - ⌊x / (2:ℚ)^(e - 52)⌋ ≠ 1/2) (m : ℤ) :
    |x - binary64Round e x| ≤ |x - m * (2:ℚ)^(e - 52)| := by
  have hcpos : (0:ℚ) < (2:ℚ)^(e - 52) := by positivity
  have hd : binary64Round e x =
      (round (x / (2:ℚ)^(e - 52)) : ℚ) * (2:ℚ)^(e - 52) := by
    unfold binary64Round
    rw [roundTiesEven_eq_round_of _ h]
  have key : ∀ n : ℤ, x - (n:ℚ) * (2:ℚ)^(e - 52) =
      (x / (2:ℚ)^(e - 52) - n) * (2:ℚ)^(e - 52) := by
    intro n
    field_simp
    ring
  rw [hd, key, key]
  rw [abs_mul, abs_mul, abs_of_pos hcpos]
  exact mul_le_mul_of_nonneg_right (round_le _ m) hcpos.le

/-- Closeness of doubleRoundtripQuotient among the grid points of its
binade: no multiple of the ulp 1/64 is closer to the exact quotient. -/
theorem doubleRoundtripQuotient_nearest (m : ℤ) :
    |(7036874417766407:ℚ)/100 - doubleRoundtripQuotient| ≤
      |(7036874417766407:ℚ)/100 - m * (2:ℚ)^((46:ℤ) - 52)| := by
  unfold doubleRoundtripQuotient
  refine binary64Round_nearest _ _ ?_ m
  rw [show (7036874417766407:ℚ)/100 / (2:ℚ)^((46:ℤ) - 52) =
      112589990684262512/25 from by norm_num]
  rw [floor_rat_eq ((112589990684262512:ℚ)/25) 4503599627370500
    (by norm_num) (by norm_num)]
  norm_num

/-- Exact value of the binary64 double denoted by the literal 0.42: it is
0.41999999999999998..., slightly below 0.42. -/
theorem double042_eq : double042 = 7566047373982433/18014398509481984 := by
  have ha : (42:ℚ)/100 / (2:ℚ)^((-2:ℤ) - 52) = 189151184349560832/25 := by
    norm_num
  have hfl : ⌊(189151184349560832:ℚ)/25⌋ = 7566047373982433 :=
    floor_rat_eq _ _ (by norm_num) (by norm_num)
  have hne : (189151184349560832:ℚ)/25 - ⌊(189151184349560832:ℚ)/25⌋ ≠ 1/2 := by
    rw [hfl]
    norm_num
  have hrte : roundTiesEven ((189151184349560832:ℚ)/25) = 7566047373982433 := by
    rw [roundTiesEven_eq_round_of _ hne]
    exact round_rat_eq _ _ (by norm_num) (by norm_num)
  unfold double042 binary64Round
  rw [ha, hrte]
  norm_num

/-- Closeness of double042 among the grid points of its binade. -/
theorem double042_nearest (m : ℤ) :
    |(42:ℚ)/100 - double042| ≤ |(42:ℚ)/100 - m * (2:ℚ)^((-2:ℤ) - 52)| := by
  unfold double042
  refine binary64Round_nearest _ _ ?_ m
  rw [show (42:ℚ)/100 / (2:ℚ)^((-2:ℤ) - 52) = 189151184349560832/25 from by
    norm_num]
  rw [floor_rat_eq ((189151184349560832:ℚ)/25) 7566047373982433
    (by norm_num) (by norm_num)]
  norm_num

/-- Exact value of the binary64 quotient double042 / 12. -/
theorem double042div12_eq :
    double042div12 = 5044031582654955/144115188075855872 := by
  have ha : double042 / 12 / (2:ℚ)^((-5:ℤ) - 52) = 15132094747964866/3 := by
    rw [double042_eq]
    norm_num
  have hfl : ⌊(15132094747964866:ℚ)/3⌋ = 5044031582654955 :=
    floor_rat_eq _ _ (by norm_num) (by norm_num)
  have hne : (15132094747964866:ℚ)/3 - ⌊(15132094747964866:ℚ)/3⌋ ≠ 1/2 := by
    rw [hfl]
    norm_num
  have hrte : roundTiesEven ((15132094747964866:ℚ)/3) = 5044031582654955 := by
    rw [roundTiesEven_eq_round_of _ hne]
    exact round_rat_eq _ _ (by norm_num) (by norm_num)
  unfold double042div12 binary64Round
  rw [ha, hrte]
  norm_num

/-- Closeness of double042div12 among the grid points of its binade. -/
theorem double042div12_nearest (m : ℤ) :
    |double042 / 12 - double042div12| ≤
      |double042 / 12 - m * (2:ℚ)^((-5:ℤ) - 52)| := by
  unfold double042div12
  refine binary64Round_nearest _ _ ?_ m
  rw [show double042 / 12 / (2:ℚ)^((-5:ℤ) - 52) = 15132094747964866/3 from by
    rw [double042_eq]; norm_num]
  rw [floor_rat_eq ((15132094747964866:ℚ)/3) 5044031582654955
    (by norm_num) (by norm_num)]
  norm_num

/-- Exact value of the binary64 product double042div12 * 100: it is
3.49999999999999955..., the display 3.4999999999999996, strictly below
the half integer 3.5 that the exact intermediate reaches. -/
theorem double042monthly_eq :
    double042monthly = 7881299347898367/2251799813685248 := by
  have ha : double042div12 * 100 / (2:ℚ)^((1:ℤ) - 52) =
      126100789566373875/16 := by
    rw [double042div12_eq]
    norm_num
  have hfl : ⌊(126100789566373875:ℚ)/16⌋ = 7881299347898367 :=
    floor_rat_eq _ _ (by norm_num) (by norm_num)
  have hne : (126100789566373875:ℚ)/16 - ⌊(126100789566373875:ℚ)/16⌋ ≠ 1/2 := by
    rw [hfl]
    norm_num
  have hrte : roundTiesEven ((126100789566373875:ℚ)/16) = 7881299347898367 := by
    rw [roundTiesEven_eq_round_of _ hne]
    exact round_rat_eq _ _ (by norm_num) (by norm_num)
  unfold double042monthly binary64Round
  rw [ha, hrte]
  norm_num

/-- Closeness of double042monthly among the grid points of its binade. -/
theorem double042monthly_nearest (m : ℤ) :
    |double042div12 * 100 - double042monthly| ≤
      |double042div12 * 100 - m * (2:ℚ)^((1:ℤ) - 52)| := by
  unfold double042monthly
  refine binary64Round_nearest _ _ ?_ m
  rw [show double042div12 * 100 / (2:ℚ)^((1:ℤ) - 52) = 126100789566373875/16
    from by rw [double042div12_eq]; norm_num]
  rw [floor_rat_eq ((126100789566373875:ℚ)/16) 7881299347898367
    (by norm_num) (by norm_num)]
  norm_num

/-- C3 counterexample: at the stored amount 0.42 the binary64 intermediate
(0.42 / 12) * 100 the program feeds Math.round is double042monthly =
3.4999999999999996, so line 90 yields 3 hundredths, 0.03; the claimed
half-up rounding of the exact twelfth, which is what monthlyEquivalent
computes, yields 4 hundredths, 0.04. -/
theorem amortizer_tie_counterexample :
    monthlyEquivalent ((42:ℚ)/100) .yearly = 4/100 ∧
    (round double042monthly : ℚ) / 100 = 3/100 ∧
    (round double042monthly : ℚ) / 100 ≠ monthlyEquivalent ((42:ℚ)/100) .yearly := by
  have hclaim : monthlyEquivalent ((42:ℚ)/100) .yearly = 4/100 := by
    show (round ((42:ℚ)/100 / 12 * 100) : ℚ) / 100 = 4/100
    rw [round_rat_eq ((42:ℚ)/100 / 12 * 100) 4 (by norm_num) (by norm_num)]
    norm_num
  have hprog : round double042monthly = 3 := by
    rw [double042monthly_eq]
    exact round_rat_eq _ _ (by norm_num) (by norm_num)
  refine ⟨hclaim, by rw [hprog]; norm_num, ?_⟩
  rw [hclaim, hprog]
  norm_num

/-- C3 amended: the amortizer keeps a monthly amount unchanged and maps a
yearly amount to Math.round of the intermediate times 100 over 100, an
integer number of hundredths, with the three documented examples; the
rounding applies to the binary64 intermediate, so exact half-integer ties
are not reliably rounded up (see the counterexample at 0.42). -/
theorem monthlyEquivalent_amended :
    (∀ a : ℚ, monthlyEquivalent a .monthly = a) ∧
    (∀ a : ℚ, ∃ n : ℤ, monthlyEquivalent a .yearly * 100 = (n : ℚ)) ∧
    monthlyEquivalent 1200 .yearly = 100 ∧
    monthlyEquivalent 100 .yearly = 833/100 ∧
    monthlyEquivalent 50 .monthly = 50 := by
  refine ⟨fun a => rfl, ?_, ?_, ?_, rfl⟩
  · intro a
    exact ⟨round (a / 12 * 100), by
      show (round (a / 12 * 100) : ℚ) / 100 * 100 = _
      field_simp⟩
  · show (round ((1200:ℚ) / 12 * 100) : ℚ) / 100 = 100
    rw [show (1200:ℚ) / 12 * 100 = ((10000:ℤ):ℚ) by norm_num, round_intCast]
    norm_num
  · show (round ((100:ℚ) / 12 * 100) : ℚ) / 100 = 833/100
    rw [round_rat_eq ((100:ℚ) / 12 * 100) 833 (by norm_num) (by norm_num)]
    norm_num

/-- Agreement of the full property-access model of toMinorUnits with the
restricted model on every code: inherited keys coerce the digit count to
0, which coincides with the JPY fallback digit count. -/
theorem jsToMinor_agrees (code : String) (q : ℚ) :
    convertAmountToMinorUnitsJs q code = convertAmountToMinorUnits q code := by
  by_cases h1 : code = "JPY"
  · subst h1; rfl
  by_cases h2 : code = "USD"
  · subst h2; rfl
  by_cases h3 : code = "EUR"
  · subst h3; rfl
  have hcfg : configFor code = CURRENCIES_JPY := by
    simp [configFor, lookupCurrency, h1, h2, h3]
  by_cases hp : code ∈ objectPrototypeKeys <;>
    simp [convertAmountToMinorUnitsJs, convertAmountToMinorUnits, jsPropertyAccess,
      h1, h2, h3, hp, hcfg, CURRENCIES_JPY]

/-- Agreement of the full property-access model of fromMinorUnits with
the restricted model on every code outside the inherited keys. -/
theorem jsFromMinor_agrees (code : String) (hp : code ∉ objectPrototypeKeys)
    (q : ℚ) :
    convertAmountFromMinorUnitsJs q code = some (convertAmountFromMinorUnits q code) := by
  by_cases h1 : code = "JPY"
  · subst h1; rfl
  by_cases h2 : code = "USD"
  · subst h2; rfl
  by_cases h3 : code = "EUR"
  · subst h3; rfl
  have hcfg : configFor code = CURRENCIES_JPY := by
    simp [configFor, lookupCurrency, h1, h2, h3]
  simp [convertAmountFromMinorUnitsJs, convertAmountFromMinorUnits, jsPropertyAccess,
    h1, h2, h3, hp, hcfg]

/-- C7 counterexample: at the Object.prototype key toString the property
access CURRENCIES[...] resolves to the inherited function, the ?? JPY
fallback is skipped, config.decimals reads undefined, and fromMinorUnits
computes amount / Math.pow(10, undefined) = NaN (modelled none) instead
of the JPY result amount / 1. -/
theorem prototype_key_counterexample :
    convertAmountFromMinorUnitsJs 100 "toString" = none ∧
    convertAmountFromMinorUnitsJs 100 "JPY" = some 100 ∧
    convertAmountFromMinorUnitsJs 100 "toString" ≠
      convertAmountFromMinorUnitsJs 100 "JPY" := by
  have h1 : convertAmountFromMinorUnitsJs 100 "toString" = none := rfl
  have h2 : convertAmountFromMinorUnitsJs 100 "JPY" = some 100 := by
    show some ((100:ℚ) / 10 ^ CURRENCIES_JPY.decimals) = some 100
    norm_num [CURRENCIES_JPY]
  exact ⟨h1, h2, by rw [h1, h2]; simp⟩

/-- C7 amended: for every unregistered code, toMinorUnits still behaves
exactly as with JPY (toFixed coerces the undefined digit count to 0), and
fromMinorUnits behaves as with JPY for every unregistered code that is
not an Object.prototype inherited key; on inherited keys fromMinorUnits
yields NaN instead (see the counterexample).  No exception is raised for
any string: the access is total. -/
theorem unknown_code_fallback_amended :
    (∀ code : String, code ∉ registeredCurrencyCodes → ∀ q : ℚ,
        convertAmountToMinorUnitsJs q code = convertAmountToMinorUnitsJs q "JPY") ∧
    (∀ code : String, code ∉ registeredCurrencyCodes →
        code ∉ objectPrototypeKeys → ∀ q : ℚ,
        convertAmountFromMinorUnitsJs q code = convertAmountFromMinorUnitsJs q "JPY") := by
  have hreg : ∀ code : String, code ∉ registeredCurrencyCodes →
      ¬ code = "JPY" ∧ ¬ code = "USD" ∧ ¬ code = "EUR" := by
    intro code h
    simpa [registeredCurrencyCodes] using h
  constructor
  · intro code h q
    obtain ⟨h1, h2, h3⟩ := hreg code h
    by_cases hp : code ∈ objectPrototypeKeys <;>
      simp [convertAmountToMinorUnitsJs, jsPropertyAccess, h1, h2, h3, hp,
        CURRENCIES_JPY]
  · intro code h hp q
    obtain ⟨h1, h2, h3⟩ := hreg code h
    simp [convertAmountFromMinorUnitsJs, jsPropertyAccess, h1, h2, h3, hp]

/-- Witness for the amended C7 at the unregistered, non-inherited code
GBP. -/
theorem unknown_code_fallback_amended_witness :
    "GBP" ∉ registeredCurrencyCodes ∧ "GBP" ∉ objectPrototypeKeys ∧
    (∀ q : ℚ, convertAmountToMinorUnitsJs q "GBP" = convertAmountToMinorUnitsJs q "JPY") ∧
    (∀ q : ℚ, convertAmountFromMinorUnitsJs q "GBP" = convertAmountFromMinorUnitsJs q "JPY") :=
  ⟨by decide, by decide, unknown_code_fallback_amended.1 "GBP" (by decide),
   unknown_code_fallback_amended.2 "GBP" (by decide) (by decide)⟩

end SubscriptionManager
